import Mathlib

/-!
# Verification of the CRM mutation engine (crm/schema.py, crm/models.py)

Shallow embedding of the repository's core: the Entity Store (Django models
Customer, Product, Order), the validation logic inside the GraphQL mutations
`CreateCustomer`, `BulkCreateCustomers`, `CreateProduct`, `CreateOrder`
(crm/schema.py), and the derived-total computation
`Order.calculate_total_amount` (crm/models.py).

Modelling conventions:
* The Django ORM store is a record of three lists; `Customer.objects.create`
  / `save` append, `filter(...).exists()` / `get(pk=...)` query the current
  list.  Primary keys (`uuid4`) are modelled as the position counter at
  creation time; nothing below depends on the key scheme beyond freshness.
* Django's `validate_email` is an external library function, so it is a
  parameter `ve : String → Bool` of every operation that uses it; concrete
  instances use `veSample` (split on a single `@`), which agrees with
  Django's validator on every concrete address appearing in this file.
* The phone regular expression `^\+?\d{9,15}$` of crm/schema.py is modelled
  exactly by `phoneRegexMatch`; Python truthiness (`if phone and ...`) is
  reproduced: `None` and `""` skip the check.
* Python `Decimal` values (model field `DecimalField`) are rationals.
* Exceptions (`raise Exception(...)` / `ValidationError`) become
  `Except String`; the `@transaction.atomic` decorator on
  `BulkCreateCustomers.mutate` becomes a wrapper that commits the final
  store on a normal return and restores the entry store when the body
  escapes with an uncaught exception.  Persistence-layer write failures
  (e.g. `IntegrityError` from `Customer.objects.create`, which the
  `except ValidationError` clause does not catch) are injected through a
  fault parameter `dbFail`.
* `Order.calculate_total_amount` runs on Python floats
  (`total = 0.00; total += float(product.price)`): float values are
  modelled as the rationals exactly representable in IEEE binary64, with
  `roundB64` the round-to-nearest-even conversion (normal range; the
  overflow/subnormal regime is never reached by 10-digit decimal prices).
-/

/- Batteries seals the rational-number operations; restore default
reducibility locally so that concrete instances evaluate by `decide`. -/
attribute [local semireducible] Rat.add Rat.mul Rat.inv Rat.sub

deriving instance DecidableEq for Except

namespace Crm

/-- Input object `CustomerInput` (crm/schema.py): `name` and `email` are
GraphQL-`required` (always present, possibly empty), `phone` optional. -/
structure CustomerInput where
  name : String
  email : String
  phone : Option String
  deriving DecidableEq, Repr

/-- Row of the `Customer` table (crm/models.py). -/
structure Customer where
  id : Nat
  name : String
  email : String
  phone : Option String
  deriving DecidableEq, Repr

/-- Row of the `Product` table (crm/models.py): `price` is a `DecimalField`,
`stock` a `PositiveIntegerField`. -/
structure Product where
  id : Nat
  name : String
  price : ℚ
  stock : Nat
  deriving DecidableEq, Repr

/-- Row of the `Order` table (crm/models.py): `products` is the many-to-many
association (the set of associated product keys), `totalAmount` the stored
derived total. -/
structure Order where
  id : Nat
  customerId : Nat
  products : List Nat
  totalAmount : ℚ
  deriving DecidableEq, Repr

/-- The Entity Store: the three Django tables. -/
structure Store where
  customers : List Customer
  products : List Product
  orders : List Order
  deriving DecidableEq, Repr

/-- ASCII apostrophe, used to reproduce the quote characters of the source's
error message strings. -/
def aq : String := String.singleton (Char.ofNat 39)

/-- The regular expression `^\+?\d{9,15}$` used by both customer mutations in
crm/schema.py: an optional leading plus sign followed by 9 to 15 digits,
anchored at both ends. -/
def phoneRegexMatch (s : String) : Bool :=
  let t := match s.data with
    | '+' :: rest => rest
    | cs => cs
  decide (9 ≤ t.length) && decide (t.length ≤ 15) && t.all Char.isDigit

/-- `if phone and not re.match(r"^\+?\d{9,15}$", phone): raise ...`
(crm/schema.py): a falsy phone (`None` or `""`) skips the check. -/
def phoneAcceptable (phone : Option String) : Bool :=
  match phone with
  | none => true
  | some p => if p = "" then true else phoneRegexMatch p

/-- Sample email-format predicate standing in for Django's `validate_email`
in concrete instances only (the general theorems quantify over the
predicate).  It agrees with Django's validator on every address used in a
concrete instance below. -/
def veSample (e : String) : Bool :=
  let cs := e.data
  let before := cs.takeWhile (fun c => c ≠ '@')
  match cs.dropWhile (fun c => c ≠ '@') with
  | '@' :: domain =>
    before ≠ [] && domain ≠ [] &&
      domain.all (fun c => c ≠ '@') && domain.contains '.'
  | _ => false

/-- `CreateCustomer.mutate` (crm/schema.py lines 67-87).  Validation order as
in the source: Django email-format check, then duplicate-email check against
the store, then phone-format check; on success a `Customer` row is saved.
There is no required-field check in this mutation. -/
def createCustomer (ve : String → Bool) (s : Store) (input : CustomerInput) :
    Store × Except String Customer :=
  if ve input.email = false then
    (s, .error "Invalid email address format.")
  else if s.customers.any (fun c => c.email = input.email) then
    (s, .error "Email already exists.")
  else if phoneAcceptable input.phone = false then
    (s, .error "Invalid phone number format. Must be +999999999 up to 15 digits.")
  else
    let c : Customer :=
      { id := s.customers.length, name := input.name, email := input.email,
        phone := input.phone }
    ({ s with customers := s.customers ++ [c] }, .ok c)

/-- The per-item validation chain of `BulkCreateCustomers.mutate`
(crm/schema.py lines 103-123), evaluated against the store state `s` current
when the item is processed: required name, required email, email format,
duplicate email against the current store, phone format.  Returns the
`ValidationError` message on failure. -/
def bulkValidateItem (ve : String → Bool) (s : Store) (input : CustomerInput) :
    Except String Unit :=
  if input.name = "" then .error "Name is required."
  else if input.email = "" then .error "Email is required."
  else if ve input.email = false then
    .error ("Invalid email address format for " ++ input.email ++ ".")
  else if s.customers.any (fun c => c.email = input.email) then
    .error ("Email " ++ aq ++ input.email ++ aq ++ " already exists.")
  else if phoneAcceptable input.phone = false then
    .error ("Invalid phone number format for " ++ aq ++ input.phone.getD "" ++ aq ++ ".")
  else .ok ()

/-- The collected per-item error string of `BulkCreateCustomers.mutate`
(line 129): `f"Validation error for {email}: {message}"`. -/
def bulkErrorString (input : CustomerInput) (msg : String) : String :=
  "Validation error for " ++ input.email ++ ": " ++ msg

/-- The loop body of `BulkCreateCustomers.mutate` (lines 103-131), threading
the store through the items.  A `ValidationError` is caught and collected; a
successful item is written immediately by `Customer.objects.create`, so later
items see it.  `dbFail` injects a persistence-layer failure of
`Customer.objects.create` (e.g. `IntegrityError`), which the
`except ValidationError` clause does not catch: the loop escapes with an
exception. -/
def bulkLoop (ve : String → Bool) (dbFail : CustomerInput → Bool) :
    Store → List CustomerInput →
    Except String (Store × List Customer × List String)
  | s, [] => .ok (s, [], [])
  | s, input :: rest =>
    match bulkValidateItem ve s input with
    | .error m =>
      match bulkLoop ve dbFail s rest with
      | .error e => .error e
      | .ok (s', cs, es) => .ok (s', cs, bulkErrorString input m :: es)
    | .ok _ =>
      if dbFail input then .error "database error while creating customer"
      else
        let c : Customer :=
          { id := s.customers.length, name := input.name, email := input.email,
            phone := input.phone }
        match bulkLoop ve dbFail { s with customers := s.customers ++ [c] } rest with
        | .error e => .error e
        | .ok (s', cs, es) => .ok (s', c :: cs, es)

/-- `BulkCreateCustomers.mutate` (crm/schema.py lines 97-131).  The
`@transaction.atomic` decorator commits the threaded store on a normal
return and rolls every write of the batch back when the body escapes with
an uncaught exception, leaving the entry store. -/
def bulkCreateCustomers (ve : String → Bool) (dbFail : CustomerInput → Bool)
    (s : Store) (inputs : List CustomerInput) :
    Store × Except String (List Customer × List String) :=
  match bulkLoop ve dbFail s inputs with
  | .error e => (s, .error e)
  | .ok (s', cs, es) => (s', .ok (cs, es))

/-- `BulkCreateCustomers` with no injected persistence failure: the normal
run of the source code. -/
def bulkCreateCustomersOk (ve : String → Bool) (s : Store)
    (inputs : List CustomerInput) :
    Store × Except String (List Customer × List String) :=
  bulkCreateCustomers ve (fun _ => false) s inputs

/-! ## IEEE binary64 value model

`Order.calculate_total_amount` (crm/models.py lines 66-78) accumulates on
Python floats.  A finite binary64 value is an exactly representable
rational; `roundB64` sends a real (rational) input to the nearest binary64
value, ties to even, in the normal range.  Conversion `float(Decimal)` and
float `+` both round their exact result this way. -/

/-- `log2Floor n` for `n ≥ 1` is `⌊log₂ n⌋`, by structural descent on a
fuel that bounds the bit length of every number reachable here. -/
def log2FloorAux : Nat → Nat → Nat
  | 0, _ => 0
  | fuel + 1, n => if 2 ≤ n then log2FloorAux fuel (n / 2) + 1 else 0

/-- `⌊log₂ n⌋` for `n ≥ 1` (0 for `n = 0`). -/
def log2Floor (n : Nat) : Nat := log2FloorAux 4096 n

/-- `⌈log₂ n⌉` for `n ≥ 1`: the least `j` with `n ≤ 2 ^ j`. -/
def log2Ceil (n : Nat) : Nat :=
  if n ≤ 1 then 0 else log2Floor (n - 1) + 1

/-- `⌊log₂ q⌋` for a positive rational `q`. -/
def ratLog2Floor (q : ℚ) : ℤ :=
  let a := q.num.toNat
  let b := q.den
  if b ≤ a then (log2Floor (a / b) : ℤ)
  else -(log2Ceil ((b + a - 1) / a) : ℤ)

/-- Multiply a rational by `2 ^ e` for an integer `e`. -/
def mulPow2 (q : ℚ) (e : ℤ) : ℚ :=
  if 0 ≤ e then q * ((2 ^ e.toNat : ℕ) : ℚ)
  else q / ((2 ^ (-e).toNat : ℕ) : ℚ)

/-- Round a rational to the nearest integer, ties to even. -/
def roundHalfEven (x : ℚ) : ℤ :=
  let f : ℤ := x.num.fdiv (x.den : ℤ)
  let r : ℚ := x - (f : ℚ)
  if r < 1 / 2 then f
  else if 1 / 2 < r then f + 1
  else if f % 2 = 0 then f else f + 1

/-- Round a positive rational to the nearest binary64 value (53-bit
significand), ties to even. -/
def roundB64Pos (q : ℚ) : ℚ :=
  let e : ℤ := ratLog2Floor q - 52
  mulPow2 ((roundHalfEven (mulPow2 q (-e)) : ℤ) : ℚ) e

/-- Round a rational to the nearest binary64 value (normal range). -/
def roundB64 (q : ℚ) : ℚ :=
  if q = 0 then 0
  else if 0 < q then roundB64Pos q
  else -roundB64Pos (-q)

/-- IEEE binary64 addition on (already representable) values: the exact sum,
rounded. -/
def floatAdd (x y : ℚ) : ℚ := roundB64 (x + y)

/-! ## Product and order mutations -/

/-- Input object `ProductInput` (crm/schema.py): `name` and `price` are
required, `stock` optional. -/
structure ProductInput where
  name : String
  price : ℚ
  stock : Option Int
  deriving DecidableEq, Repr

/-- Input object `OrderInput` (crm/schema.py). -/
structure OrderInput where
  customerId : Nat
  productIds : List Nat
  deriving DecidableEq, Repr

/-- `CreateProduct.mutate` (crm/schema.py lines 140-153): reject
`price <= 0`, reject a supplied negative stock, then create the row with
`stock or 0` (`None` becomes 0). -/
def createProduct (s : Store) (input : ProductInput) :
    Store × Except String Product :=
  if input.price ≤ 0 then
    (s, .error "Price must be a positive number.")
  else if (input.stock.map (fun st => decide (st < 0))).getD false then
    (s, .error "Stock cannot be a negative number.")
  else
    let p : Product :=
      { id := s.products.length, name := input.name, price := input.price,
        stock := (input.stock.getD 0).toNat }
    ({ s with products := s.products ++ [p] }, .ok p)

/-- `Order.calculate_total_amount` (crm/models.py lines 66-78): starting from
the float literal `0.00`, look each product id up in order and accumulate
`total += float(product.price)`; raise `ValidationError` naming the first
id that does not resolve. -/
def calculateTotalAmount (s : Store) : List Nat → ℚ → Except String ℚ
  | [], total => .ok total
  | pid :: rest, total =>
    match s.products.find? (fun p => p.id = pid) with
    | some p => calculateTotalAmount s rest (floatAdd total (roundB64 p.price))
    | none => .error ("Product with ID " ++ toString pid ++ " does not exist.")

/-- `CreateOrder.mutate` (crm/schema.py lines 162-183): resolve the customer
(`NotFound` otherwise), reject an empty `product_ids`, compute the total
(a `ValidationError` from `calculate_total_amount` escapes before any
write), then save the order row and set the many-to-many association to
`Product.objects.filter(pk__in=product_ids)` — each stored product whose key
occurs in the list, once. -/
def createOrder (s : Store) (input : OrderInput) :
    Store × Except String Order :=
  match s.customers.find? (fun c => c.id = input.customerId) with
  | none => (s, .error "Customer with the given ID does not exist.")
  | some _ =>
    if input.productIds = [] then
      (s, .error "An order must contain at least one product.")
    else
      match calculateTotalAmount s input.productIds 0 with
      | .error e => (s, .error e)
      | .ok total =>
        let assoc : List Nat :=
          (s.products.filter (fun p => input.productIds.contains p.id)).map
            (fun p => p.id)
        let o : Order :=
          { id := s.orders.length, customerId := input.customerId,
            products := assoc, totalAmount := total }
        ({ s with orders := s.orders ++ [o] }, .ok o)

/-! ## Theorems -/

/-- C5: an input whose email (in valid format, as every store-resident email
is) is already held by a stored Customer makes `CreateCustomer` fail with
the conflict error and leave the Entity Store unchanged. -/
theorem C5_duplicate_email_conflict (ve : String → Bool) (s : Store)
    (input : CustomerInput) (hfmt : ve input.email = true)
    (hdup : ∃ c ∈ s.customers, c.email = input.email) :
    createCustomer ve s input = (s, .error "Email already exists.") := by
  obtain ⟨c, hc, he⟩ := hdup
  have hany : s.customers.any (fun c => c.email = input.email) = true :=
    List.any_eq_true.mpr ⟨c, hc, by simp [he]⟩
  simp [createCustomer, hfmt, hany]

/-- Witness for C5 at a concrete store and input. -/
theorem C5_duplicate_email_conflict_witness :
    createCustomer veSample ⟨[⟨0, "Alice", "a@b.com", none⟩], [], []⟩
        ⟨"Bob", "a@b.com", none⟩ =
      (⟨[⟨0, "Alice", "a@b.com", none⟩], [], []⟩, .error "Email already exists.") :=
  C5_duplicate_email_conflict veSample ⟨[⟨0, "Alice", "a@b.com", none⟩], [], []⟩
    ⟨"Bob", "a@b.com", none⟩ (by decide) ⟨⟨0, "Alice", "a@b.com", none⟩, by decide, rfl⟩

/-- C9: `CreateProduct` fails exactly when `price ≤ 0` or a supplied stock is
negative; on success it persists the product with the given name and price
and with stock defaulting to 0 when absent, and a failing call writes
nothing. -/
theorem C9_create_product_range (s : Store) (input : ProductInput) :
    (0 < input.price ∧ (∀ st ∈ input.stock, 0 ≤ st) →
      createProduct s input =
        ({ s with products := s.products ++
            [⟨s.products.length, input.name, input.price, (input.stock.getD 0).toNat⟩] },
         .ok ⟨s.products.length, input.name, input.price, (input.stock.getD 0).toNat⟩)) ∧
    (¬(0 < input.price ∧ (∀ st ∈ input.stock, 0 ≤ st)) →
      ∃ m, createProduct s input = (s, .error m)) := by
  constructor
  · rintro ⟨hp, hst⟩
    have hple : ¬ input.price ≤ 0 := not_le.mpr hp
    have hstock : (input.stock.map (fun st => decide (st < 0))).getD false = false := by
      cases h : input.stock with
      | none => rfl
      | some st => simpa using not_lt.mpr (hst st (by simp [h]))
    simp [createProduct, hple, hstock]
  · intro h
    rcases not_and_or.mp h with hp | hst
    · exact ⟨"Price must be a positive number.",
        by simp [createProduct, not_lt.mp (fun hq => hp hq)]⟩
    · push_neg at hst
      obtain ⟨st, hmem, hneg⟩ := hst
      have hsome : input.stock = some st := by
        cases h' : input.stock
        · simp [h'] at hmem
        · simp [h'] at hmem
          simp [hmem]
      by_cases hple : input.price ≤ 0
      · exact ⟨"Price must be a positive number.", by simp [createProduct, hple]⟩
      · exact ⟨"Stock cannot be a negative number.",
          by simp [createProduct, hple, hsome, hneg]⟩

/-- Witness for C9: price 0.01 succeeds with stock defaulting to 0;
price 0 fails with no write. -/
theorem C9_create_product_range_witness :
    createProduct ⟨[], [], []⟩ ⟨"Widget", 1/100, none⟩ =
      (⟨[], [⟨0, "Widget", 1/100, 0⟩], []⟩, .ok ⟨0, "Widget", 1/100, 0⟩) ∧
    (∃ m, createProduct ⟨[], [], []⟩ ⟨"Widget", 0, none⟩ = (⟨[], [], []⟩, .error m)) :=
  ⟨(C9_create_product_range ⟨[], [], []⟩ ⟨"Widget", 1/100, none⟩).1
      ⟨by decide, by simp⟩,
   (C9_create_product_range ⟨[], [], []⟩ ⟨"Widget", 0, none⟩).2
      (by simp)⟩

/-- C8 counterexample: `CreateCustomer.mutate` has no required-field check.
An input with an empty name and a fresh, well-formed email is accepted and
persisted (the claim predicts a MissingFieldError and no write). -/
theorem C8_counterexample :
    createCustomer veSample ⟨[], [], []⟩ ⟨"", "a@b.com", none⟩ =
      (⟨[⟨0, "", "a@b.com", none⟩], [], []⟩, .ok ⟨0, "", "a@b.com", none⟩) := by decide

/-- C8 amended: `CreateCustomer` runs no required-field validation; its chain
is email-format → uniqueness → phone-format.  An empty (or otherwise
malformed) email fails the email-format check with no write, while an
empty name with an acceptable email and phone succeeds and persists a
Customer with empty name. -/
theorem C8_amended_no_required_check (ve : String → Bool) (s : Store)
    (input : CustomerInput) :
    (ve input.email = false →
      createCustomer ve s input = (s, .error "Invalid email address format.")) ∧
    (input.name = "" → ve input.email = true →
      (∀ c ∈ s.customers, c.email ≠ input.email) →
      phoneAcceptable input.phone = true →
      createCustomer ve s input =
        ({ s with customers := s.customers ++
            [⟨s.customers.length, "", input.email, input.phone⟩] },
         .ok ⟨s.customers.length, "", input.email, input.phone⟩)) := by
  constructor
  · intro hbad
    simp [createCustomer, hbad]
  · intro hname hfmt hfresh hphone
    have hany : s.customers.any (fun c => c.email = input.email) = false := by
      simp only [List.any_eq_false]
      intro c hc
      simpa using hfresh c hc
    simp [createCustomer, hfmt, hany, hphone, hname]

/-- Witness for the amended C8: a malformed email is rejected with no write,
and an empty-name input with a fresh valid email is created. -/
theorem C8_amended_no_required_check_witness :
    createCustomer veSample ⟨[], [], []⟩ ⟨"Ann", "nota-email", none⟩ =
      (⟨[], [], []⟩, .error "Invalid email address format.") ∧
    createCustomer veSample ⟨[], [], []⟩ ⟨"", "a@b.com", none⟩ =
      (⟨[⟨0, "", "a@b.com", none⟩], [], []⟩, .ok ⟨0, "", "a@b.com", none⟩) :=
  ⟨(C8_amended_no_required_check veSample ⟨[], [], []⟩ ⟨"Ann", "nota-email", none⟩).1
      (by decide),
   (C8_amended_no_required_check veSample ⟨[], [], []⟩ ⟨"", "a@b.com", none⟩).2
      rfl (by decide) (by decide) (by decide)⟩

/-- The price a product identifier resolves to (0 when unresolved; only used
under a hypothesis that every identifier resolves). -/
def lookupPrice (s : Store) (pid : Nat) : ℚ :=
  match s.products.find? (fun p => p.id = pid) with
  | some p => p.price
  | none => 0

/-- The float total `calculate_total_amount` computes when every identifier
resolves: one float addition per occurrence in the list. -/
def floatTotal (s : Store) (ids : List Nat) : ℚ :=
  ids.foldl (fun t pid => floatAdd t (roundB64 (lookupPrice s pid))) 0

/-- If some identifier in the list does not resolve,
`calculate_total_amount` raises naming the first such identifier. -/
theorem calculateTotalAmount_error_of_missing (s : Store) (ids : List Nat)
    (acc : ℚ) (h : ∃ pid ∈ ids, ∀ p ∈ s.products, p.id ≠ pid) :
    ∃ pid ∈ ids, (∀ p ∈ s.products, p.id ≠ pid) ∧
      calculateTotalAmount s ids acc =
        .error ("Product with ID " ++ toString pid ++ " does not exist.") := by
  induction ids generalizing acc with
  | nil => simp at h
  | cons hd tl ih =>
    cases hf : s.products.find? (fun p => p.id = hd) with
    | none =>
      refine ⟨hd, by simp, fun p hp => ?_, by simp [calculateTotalAmount, hf]⟩
      have := List.find?_eq_none.mp hf p hp
      simpa using this
    | some p =>
      have hpmem : p ∈ s.products := List.mem_of_find?_eq_some hf
      have hpid : p.id = hd := by simpa using List.find?_some hf
      obtain ⟨pid, hmem, hno⟩ := h
      have hpid' : pid ∈ tl := by
        rcases List.mem_cons.mp hmem with rfl | htl
        · exact absurd hpid (hno p hpmem)
        · exact htl
      obtain ⟨pid', hmem', hno', herr⟩ :=
        ih (floatAdd acc (roundB64 p.price)) ⟨pid, hpid', hno⟩
      exact ⟨pid', List.mem_cons_of_mem hd hmem', hno',
        by simpa [calculateTotalAmount, hf] using herr⟩

/-- If `calculate_total_amount` returns a total, every identifier in the
list resolves to a stored product. -/
theorem calculateTotalAmount_ok_resolves (s : Store) (ids : List Nat)
    (acc t : ℚ) (h : calculateTotalAmount s ids acc = .ok t) :
    ∀ pid ∈ ids, ∃ p ∈ s.products, p.id = pid := by
  induction ids generalizing acc with
  | nil => simp
  | cons hd tl ih =>
    cases hf : s.products.find? (fun p => p.id = hd) with
    | none => simp [calculateTotalAmount, hf] at h
    | some p =>
      have hrest := by simpa [calculateTotalAmount, hf] using h
      intro pid hmem
      rcases List.mem_cons.mp hmem with rfl | htl
      · exact ⟨p, List.mem_of_find?_eq_some hf, by simpa using List.find?_some hf⟩
      · exact ih _ hrest pid htl

/-- If every identifier in the list resolves, `calculate_total_amount`
returns the float sum of the resolved prices, one addition per occurrence. -/
theorem calculateTotalAmount_ok_of_resolves (s : Store) (ids : List Nat)
    (acc : ℚ) (h : ∀ pid ∈ ids, ∃ p ∈ s.products, p.id = pid) :
    calculateTotalAmount s ids acc =
      .ok (ids.foldl (fun t pid => floatAdd t (roundB64 (lookupPrice s pid))) acc) := by
  induction ids generalizing acc with
  | nil => simp [calculateTotalAmount]
  | cons hd tl ih =>
    cases hf : s.products.find? (fun p => p.id = hd) with
    | none =>
      obtain ⟨p, hp, hpid⟩ := h hd (by simp)
      have := List.find?_eq_none.mp hf p hp
      simp [hpid] at this
    | some p =>
      have : lookupPrice s hd = p.price := by simp [lookupPrice, hf]
      simp only [calculateTotalAmount, hf, List.foldl_cons, this]
      exact ih _ (fun pid hm => h pid (List.mem_cons_of_mem hd hm))

/-- C4: when the customer resolves but some product identifier does not,
`CreateOrder` fails with the not-found error naming the first missing
identifier, and the Entity Store is unchanged: no order row, no
association, no partial total. -/
theorem C4_missing_product_aborts (s : Store) (input : OrderInput)
    (hc : (s.customers.find? (fun c => c.id = input.customerId)).isSome)
    (hm : ∃ pid ∈ input.productIds, ∀ p ∈ s.products, p.id ≠ pid) :
    ∃ pid ∈ input.productIds, (∀ p ∈ s.products, p.id ≠ pid) ∧
      createOrder s input =
        (s, .error ("Product with ID " ++ toString pid ++ " does not exist.")) := by
  obtain ⟨c, hcs⟩ := Option.isSome_iff_exists.mp hc
  have hne : input.productIds ≠ [] := by
    rintro hnil
    rw [hnil] at hm
    simp at hm
  obtain ⟨pid, hmem, hnores, herr⟩ :=
    calculateTotalAmount_error_of_missing s input.productIds 0 hm
  exact ⟨pid, hmem, hnores, by simp [createOrder, hcs, hne, herr]⟩

/-- Witness for C4: product 1 is absent, the order fails not-found and the
store is unchanged. -/
theorem C4_missing_product_aborts_witness :
    ∃ pid ∈ [0, 1], (∀ p ∈ [(⟨0, "A", 10, 0⟩ : Product)], p.id ≠ pid) ∧
      createOrder ⟨[⟨0, "C", "c@d.com", none⟩], [⟨0, "A", 10, 0⟩], []⟩ ⟨0, [0, 1]⟩ =
        (⟨[⟨0, "C", "c@d.com", none⟩], [⟨0, "A", 10, 0⟩], []⟩,
         .error ("Product with ID " ++ toString pid ++ " does not exist.")) :=
  C4_missing_product_aborts ⟨[⟨0, "C", "c@d.com", none⟩], [⟨0, "A", 10, 0⟩], []⟩
    ⟨0, [0, 1]⟩ (by decide) ⟨1, by decide, by decide⟩

/-- C6: with a resolving customer and an empty `product_ids`, `CreateOrder`
fails with the empty-input error and writes nothing; and every order that
`CreateOrder` does persist has a non-empty product association. -/
theorem C6_order_nonempty_products (s : Store) (input : OrderInput) :
    ((s.customers.find? (fun c => c.id = input.customerId)).isSome →
      input.productIds = [] →
      createOrder s input = (s, .error "An order must contain at least one product.")) ∧
    (∀ s' o, createOrder s input = (s', .ok o) → o.products ≠ []) := by
  constructor
  · intro hc hnil
    obtain ⟨c, hcs⟩ := Option.isSome_iff_exists.mp hc
    simp [createOrder, hcs, hnil]
  · intro s' o h
    cases hcf : s.customers.find? (fun c => c.id = input.customerId) with
    | none => simp [createOrder, hcf] at h
    | some c =>
      by_cases hnil : input.productIds = []
      · simp [createOrder, hcf, hnil] at h
      · cases ht : calculateTotalAmount s input.productIds 0 with
        | error e => simp [createOrder, hcf, hnil, ht] at h
        | ok t =>
          have hsh : createOrder s input =
              ({ s with orders := s.orders ++
                  [⟨s.orders.length, input.customerId,
                    (s.products.filter (fun p => input.productIds.contains p.id)).map
                      (fun p => p.id), t⟩] },
               .ok ⟨s.orders.length, input.customerId,
                (s.products.filter (fun p => input.productIds.contains p.id)).map
                  (fun p => p.id), t⟩) := by
            simp [createOrder, hcf, hnil, ht]
          rw [hsh] at h
          obtain ⟨-, hok⟩ := Prod.mk.injEq .. ▸ h
          cases hok
          obtain ⟨pid0, hpid0⟩ := List.exists_mem_of_ne_nil _ hnil
          obtain ⟨p, hp, hpeq⟩ :=
            calculateTotalAmount_ok_resolves s input.productIds 0 t ht pid0 hpid0
          intro hempty
          simp only [List.map_eq_nil_iff, List.filter_eq_nil_iff] at hempty
          exact hempty p hp (by simp [hpeq, hpid0])

/-- Witness for C6: an order with an existing customer and empty
`product_ids` is rejected with no write; a successful order has a
non-empty association. -/
theorem C6_order_nonempty_products_witness :
    createOrder ⟨[⟨0, "C", "c@d.com", none⟩], [], []⟩ ⟨0, []⟩ =
      (⟨[⟨0, "C", "c@d.com", none⟩], [], []⟩,
       .error "An order must contain at least one product.") :=
  (C6_order_nonempty_products ⟨[⟨0, "C", "c@d.com", none⟩], [], []⟩ ⟨0, []⟩).1
    (by decide) rfl

/-- Behaviour of the `BulkCreateCustomers` loop when no persistence-layer
write fails: it never escapes, each input contributes exactly one element
to exactly one of the two lists, the created customers are appended to the
store in input order, and each collected error names its input's email. -/
theorem bulkLoop_spec (ve : String → Bool) (dbFail : CustomerInput → Bool)
    (s : Store) (inputs : List CustomerInput)
    (hdb : ∀ i ∈ inputs, dbFail i = false) :
    ∃ s' cs es, bulkLoop ve dbFail s inputs = .ok (s', cs, es) ∧
      cs.length + es.length = inputs.length ∧
      s'.customers = s.customers ++ cs ∧
      s'.products = s.products ∧ s'.orders = s.orders ∧
      (∀ e ∈ es, ∃ i ∈ inputs, ∃ m, e = bulkErrorString i m) ∧
      (∀ c ∈ cs, ∃ i ∈ inputs,
        c.name = i.name ∧ c.email = i.email ∧ c.phone = i.phone) := by
  induction inputs generalizing s with
  | nil => exact ⟨s, [], [], rfl, rfl, by simp, rfl, rfl, by simp, by simp⟩
  | cons i rest ih =>
    have hdbrest : ∀ j ∈ rest, dbFail j = false :=
      fun j hj => hdb j (List.mem_cons_of_mem i hj)
    cases hv : bulkValidateItem ve s i with
    | error m =>
      obtain ⟨s', cs, es, hloop, hlen, hc, hp, ho, herr, hcust⟩ := ih s hdbrest
      refine ⟨s', cs, bulkErrorString i m :: es, ?_, ?_, hc, hp, ho, ?_, ?_⟩
      · simp [bulkLoop, hv, hloop]
      · simp only [List.length_cons]
        omega
      · intro e he
        rcases List.mem_cons.mp he with rfl | htl
        · exact ⟨i, by simp, m, rfl⟩
        · obtain ⟨j, hj, m', hm'⟩ := herr e htl
          exact ⟨j, List.mem_cons_of_mem i hj, m', hm'⟩
      · intro c hcmem
        obtain ⟨j, hj, hn⟩ := hcust c hcmem
        exact ⟨j, List.mem_cons_of_mem i hj, hn⟩
    | ok _ =>
      have hdbi : dbFail i = false := hdb i (by simp)
      obtain ⟨s', cs, es, hloop, hlen, hc, hp, ho, herr, hcust⟩ :=
        ih { s with customers := s.customers ++
          [⟨s.customers.length, i.name, i.email, i.phone⟩] } hdbrest
      refine ⟨s', ⟨s.customers.length, i.name, i.email, i.phone⟩ :: cs, es,
        ?_, ?_, ?_, hp, ho, ?_, ?_⟩
      · simp [bulkLoop, hv, hdbi, hloop]
      · simp only [List.length_cons]
        omega
      · simpa [List.append_assoc] using hc
      · intro e he
        obtain ⟨j, hj, m', hm'⟩ := herr e he
        exact ⟨j, List.mem_cons_of_mem i hj, m', hm'⟩
      · intro c hcmem
        rcases List.mem_cons.mp hcmem with rfl | htl
        · exact ⟨i, by simp, rfl, rfl, rfl⟩
        · obtain ⟨j, hj, hn⟩ := hcust c htl
          exact ⟨j, List.mem_cons_of_mem i hj, hn⟩

/-- C1 counterexample: the bulk mutation does not validate with the
`CreateCustomer` chain.  The input (empty name, fresh well-formed email)
passes the `CreateCustomer` chain — the single mutation creates it — but
`BulkCreateCustomers` rejects it with a required-name error. -/
theorem C1_counterexample :
    (createCustomer veSample ⟨[], [], []⟩ ⟨"", "x@y.org", none⟩).2 =
      .ok ⟨0, "", "x@y.org", none⟩ ∧
    bulkCreateCustomersOk veSample ⟨[], [], []⟩ [⟨"", "x@y.org", none⟩] =
      (⟨[], [], []⟩, .ok ([], ["Validation error for x@y.org: Name is required."])) := by
  decide

/-- C1 amended: `BulkCreateCustomers` validates each input with its own
per-item chain (required name and email, email format, uniqueness against
the store state current at that item, phone format) and returns two lists:
created customers, appended to the store in input order (successes only),
and one error message per failing input, each naming the offending input's
email; every input lands in exactly one list, so
`|created| + |errors| = |inputs|`. -/
theorem C1_amended_two_list_contract (ve : String → Bool) (s : Store)
    (inputs : List CustomerInput) :
    ∃ s' cs es, bulkCreateCustomersOk ve s inputs = (s', .ok (cs, es)) ∧
      cs.length + es.length = inputs.length ∧
      s'.customers = s.customers ++ cs ∧
      s'.products = s.products ∧ s'.orders = s.orders ∧
      (∀ e ∈ es, ∃ i ∈ inputs, ∃ m, e = bulkErrorString i m) ∧
      (∀ c ∈ cs, ∃ i ∈ inputs,
        c.name = i.name ∧ c.email = i.email ∧ c.phone = i.phone) := by
  obtain ⟨s', cs, es, hloop, hrest⟩ :=
    bulkLoop_spec ve (fun _ => false) s inputs (by simp)
  exact ⟨s', cs, es, by simp [bulkCreateCustomersOk, bulkCreateCustomers, hloop], hrest⟩

/-- C2: the batch is a single transaction.  Whenever the bulk mutation
escapes with an uncaught exception — in particular when persistence of an
already-validated item fails at write time — the Entity Store is left
exactly as it was before the batch (full rollback); and when no write
fails, the batch returns normally with every validation-passing item
persisted and counted, validation failures never blocking siblings. -/
theorem C2_batch_atomicity (ve : String → Bool) (dbFail : CustomerInput → Bool)
    (s : Store) (inputs : List CustomerInput) :
    (∀ e, (bulkCreateCustomers ve dbFail s inputs).2 = .error e →
      (bulkCreateCustomers ve dbFail s inputs).1 = s) ∧
    ((∀ i ∈ inputs, dbFail i = false) →
      ∃ cs es, bulkCreateCustomers ve dbFail s inputs =
        ({ s with customers := s.customers ++ cs }, .ok (cs, es)) ∧
        cs.length + es.length = inputs.length) := by
  constructor
  · intro e
    cases hloop : bulkLoop ve dbFail s inputs with
    | error e' => intro _; simp [bulkCreateCustomers, hloop]
    | ok r =>
      obtain ⟨s', cs, es⟩ := r
      intro h
      simp [bulkCreateCustomers, hloop] at h
  · intro hdb
    obtain ⟨s', cs, es, hloop, hlen, hc, hp, ho, -, -⟩ :=
      bulkLoop_spec ve dbFail s inputs hdb
    refine ⟨cs, es, ?_, hlen⟩
    have hs' : s' = { s with customers := s.customers ++ cs } := by
      cases s'
      simp_all
    simp [bulkCreateCustomers, hloop, hs']

/-- Witness for C2: three inputs against a store holding `x@y.org`; with a
write failure injected on the third (validated) input the store is
unchanged — neither of the two valid customers survives — and with no
write failure the batch returns 2 created plus 1 error. -/
theorem C2_batch_atomicity_witness :
    (bulkCreateCustomers veSample (fun i => i.email == "b@c.org")
        ⟨[⟨0, "Eve", "x@y.org", none⟩], [], []⟩
        [⟨"Ann", "a@b.org", none⟩, ⟨"Dup", "x@y.org", none⟩, ⟨"Ben", "b@c.org", none⟩]).1 =
      ⟨[⟨0, "Eve", "x@y.org", none⟩], [], []⟩ ∧
    (∃ cs es, bulkCreateCustomers veSample (fun _ => false)
        ⟨[⟨0, "Eve", "x@y.org", none⟩], [], []⟩
        [⟨"Ann", "a@b.org", none⟩, ⟨"Dup", "x@y.org", none⟩, ⟨"Ben", "b@c.org", none⟩] =
        ({ (⟨[⟨0, "Eve", "x@y.org", none⟩], [], []⟩ : Store) with
            customers := [⟨0, "Eve", "x@y.org", none⟩] ++ cs }, .ok (cs, es)) ∧
        cs.length + es.length = 3) :=
  ⟨(C2_batch_atomicity veSample (fun i => i.email == "b@c.org")
      ⟨[⟨0, "Eve", "x@y.org", none⟩], [], []⟩
      [⟨"Ann", "a@b.org", none⟩, ⟨"Dup", "x@y.org", none⟩, ⟨"Ben", "b@c.org", none⟩]).1
      "database error while creating customer" (by decide),
   (C2_batch_atomicity veSample (fun _ => false)
      ⟨[⟨0, "Eve", "x@y.org", none⟩], [], []⟩
      [⟨"Ann", "a@b.org", none⟩, ⟨"Dup", "x@y.org", none⟩, ⟨"Ben", "b@c.org", none⟩]).2
      (by simp)⟩

/-- C7 counterexample: two batch inputs share a fresh email.  The claim
predicts neither is rejected and both are created; in fact the first
input's row is written before the second is validated, so the second fails
the duplicate-email check and only one customer is created. -/
theorem C7_counterexample :
    bulkCreateCustomersOk veSample ⟨[], [], []⟩
        [⟨"Alice", "a@b.com", none⟩, ⟨"Bob", "a@b.com", none⟩] =
      (⟨[⟨0, "Alice", "a@b.com", none⟩], [], []⟩,
       .ok ([⟨0, "Alice", "a@b.com", none⟩],
        ["Validation error for a@b.com: Email " ++ aq ++ "a@b.com" ++ aq ++
          " already exists."])) := by
  decide

/-- C7 amended: the duplicate-email check runs against the store state
current at each item, which includes rows created earlier in the same
batch.  Two inputs sharing an email not pre-existing in the store are
resolved first-wins: the first is created, the second rejected by the
check. -/
theorem C7_amended_intra_batch_first_wins (ve : String → Bool) (s : Store)
    (i1 i2 : CustomerInput)
    (h1n : i1.name ≠ "") (h1e : i1.email ≠ "")
    (hfmt : ve i1.email = true)
    (hfresh : ∀ c ∈ s.customers, c.email ≠ i1.email)
    (hp1 : phoneAcceptable i1.phone = true)
    (h2n : i2.name ≠ "") (he : i2.email = i1.email) :
    bulkCreateCustomersOk ve s [i1, i2] =
      ({ s with customers := s.customers ++
          [⟨s.customers.length, i1.name, i1.email, i1.phone⟩] },
       .ok ([⟨s.customers.length, i1.name, i1.email, i1.phone⟩],
            [bulkErrorString i2
              ("Email " ++ aq ++ i2.email ++ aq ++ " already exists.")])) := by
  have hany1 : s.customers.any (fun c => c.email = i1.email) = false := by
    simp only [List.any_eq_false]
    intro c hc
    simpa using hfresh c hc
  have hv1 : bulkValidateItem ve s i1 = .ok () := by
    simp [bulkValidateItem, h1n, h1e, hfmt, hany1, hp1]
  have hany2 : ({ s with customers := s.customers ++
      [⟨s.customers.length, i1.name, i1.email, i1.phone⟩] } : Store).customers.any
        (fun c => c.email = i2.email) = true := by
    simp [he]
  have hv2 : bulkValidateItem ve { s with customers := s.customers ++
      [⟨s.customers.length, i1.name, i1.email, i1.phone⟩] } i2 =
      .error ("Email " ++ aq ++ i2.email ++ aq ++ " already exists.") := by
    rw [bulkValidateItem]
    simp [h2n, he, h1e, hfmt, hany2]
  simp [bulkCreateCustomersOk, bulkCreateCustomers, bulkLoop, hv1, hv2]

/-- Witness for the amended C7 at a concrete store and pair of inputs. -/
theorem C7_amended_intra_batch_first_wins_witness :
    bulkCreateCustomersOk veSample ⟨[⟨0, "Eve", "x@y.org", none⟩], [], []⟩
        [⟨"Carol", "c@d.org", none⟩, ⟨"Dave", "c@d.org", some "+123456789"⟩] =
      (⟨[⟨0, "Eve", "x@y.org", none⟩, ⟨1, "Carol", "c@d.org", none⟩], [], []⟩,
       .ok ([⟨1, "Carol", "c@d.org", none⟩],
            [bulkErrorString ⟨"Dave", "c@d.org", some "+123456789"⟩
              ("Email " ++ aq ++ "c@d.org" ++ aq ++ " already exists.")])) :=
  C7_amended_intra_batch_first_wins veSample ⟨[⟨0, "Eve", "x@y.org", none⟩], [], []⟩
    ⟨"Carol", "c@d.org", none⟩ ⟨"Dave", "c@d.org", some "+123456789"⟩
    (by decide) (by decide) (by decide) (by decide) (by decide) (by decide) rfl

/-- C10: with a resolving customer, distinct stored product keys and every
identifier resolving, a `product_ids` list containing a duplicate still
succeeds; the stored total is one float addition per occurrence in the
list, while the persisted association contains each product only once
(no duplicate keys, membership exactly the listed identifiers).
Consequently the total can exceed the price sum of the distinct associated
products, as the concrete instance in the second conjunct shows: product
price 10.00 listed twice gives total 20.00 against a distinct-product
price sum of 10.00. -/
theorem C10_duplicate_ids_total_per_occurrence :
    (∀ (s : Store) (input : OrderInput),
      (s.customers.find? (fun c => c.id = input.customerId)).isSome →
      (s.products.map (fun p => p.id)).Nodup →
      (∀ pid ∈ input.productIds, ∃ p ∈ s.products, p.id = pid) →
      ¬ input.productIds.Nodup →
      ∃ s' o, createOrder s input = (s', .ok o) ∧
        o.products.Nodup ∧
        (∀ pid, pid ∈ o.products ↔ pid ∈ input.productIds) ∧
        o.totalAmount = floatTotal s input.productIds) ∧
    (∃ o, (createOrder ⟨[⟨0, "C", "c@d.com", none⟩], [⟨0, "P", 10, 0⟩], []⟩
        ⟨0, [0, 0]⟩).2 = .ok o ∧
      o.products = [0] ∧
      (((⟨[⟨0, "C", "c@d.com", none⟩], [⟨0, "P", 10, 0⟩], []⟩ : Store).products.filter
          (fun p => o.products.contains p.id)).map (fun p => p.price)).sum <
        o.totalAmount) := by
  constructor
  · intro s input hc hwf hres hdup
    obtain ⟨c, hcf⟩ := Option.isSome_iff_exists.mp hc
    have hne : input.productIds ≠ [] := by
      rintro hnil
      exact hdup (hnil ▸ List.nodup_nil)
    have ht : calculateTotalAmount s input.productIds 0 =
        .ok (floatTotal s input.productIds) :=
      calculateTotalAmount_ok_of_resolves s input.productIds 0 hres
    have hshape : createOrder s input =
        ({ s with orders := s.orders ++
            [⟨s.orders.length, input.customerId,
              (s.products.filter (fun p => input.productIds.contains p.id)).map
                (fun p => p.id), floatTotal s input.productIds⟩] },
         .ok ⟨s.orders.length, input.customerId,
           (s.products.filter (fun p => input.productIds.contains p.id)).map
             (fun p => p.id), floatTotal s input.productIds⟩) := by
      simp [createOrder, hcf, hne, ht]
    refine ⟨_, _, hshape, ?_, ?_, rfl⟩
    · have hsub : ((s.products.filter
          (fun p => input.productIds.contains p.id)).map (fun p => p.id)).Sublist
          (s.products.map (fun p => p.id)) :=
        (List.filter_sublist s.products).map (fun p => p.id)
      exact hwf.sublist hsub
    · intro pid
      constructor
      · intro hmem
        obtain ⟨p, hpf, hpid⟩ := List.mem_map.mp hmem
        obtain ⟨-, hcont⟩ := List.mem_filter.mp hpf
        have : p.id ∈ input.productIds := by simpa using hcont
        exact hpid ▸ this
      · intro hmem
        obtain ⟨p, hp, hpid⟩ := hres pid hmem
        exact List.mem_map.mpr ⟨p, List.mem_filter.mpr ⟨hp, by simp [hpid, hmem]⟩, hpid⟩
  · exact ⟨⟨0, 0, [0], 20⟩, by decide, rfl, by decide⟩

/-- Witness for C10 at a concrete store and a duplicated identifier list. -/
theorem C10_duplicate_ids_total_per_occurrence_witness :
    ∃ s' o, createOrder ⟨[⟨0, "C", "c@d.com", none⟩], [⟨0, "P", 10, 0⟩], []⟩
        ⟨0, [0, 0]⟩ = (s', .ok o) ∧
      o.products.Nodup ∧
      (∀ pid, pid ∈ o.products ↔ pid ∈ ([0, 0] : List Nat)) ∧
      o.totalAmount =
        floatTotal ⟨[⟨0, "C", "c@d.com", none⟩], [⟨0, "P", 10, 0⟩], []⟩ [0, 0] :=
  (C10_duplicate_ids_total_per_occurrence).1
    ⟨[⟨0, "C", "c@d.com", none⟩], [⟨0, "P", 10, 0⟩], []⟩ ⟨0, [0, 0]⟩
    (by decide) (by decide) (by decide) (by decide)

/-- C3 (defect exhibit): `calculate_total_amount` sums on binary floats.
On the spec's own example (prices 10.00 and 15.25, both binary-exact) the
result is exactly 25.25 in either list order, but for the valid decimal
prices 0.10 and 0.20 the computed total is the binary64 value
5404319552844596/2^54 = 0.30000000000000004…, not the exact decimal sum
0.30 — refuting exactness of the total for every resolving list. -/
theorem C3_float_total_not_exact :
    calculateTotalAmount ⟨[], [⟨0, "A", 10, 0⟩, ⟨1, "B", 61/4, 0⟩], []⟩ [0, 1] 0 =
      .ok (101/4) ∧
    calculateTotalAmount ⟨[], [⟨0, "A", 10, 0⟩, ⟨1, "B", 61/4, 0⟩], []⟩ [1, 0] 0 =
      .ok (101/4) ∧
    calculateTotalAmount ⟨[], [⟨0, "A", 1/10, 0⟩, ⟨1, "B", 2/10, 0⟩], []⟩ [0, 1] 0 =
      .ok (5404319552844596/2^54) ∧
    (5404319552844596/2^54 : ℚ) ≠ 1/10 + 2/10 := by
  decide

end Crm
